import Mathlib

/-
Verification of the task classification and aggregation engine of
backlog-fire-tasks (src/src/api.ts) against its natural-language
specification.

Shallow embedding conventions, used throughout:

* Calendar dates.  A canonical `YYYY-MM-DD` date string is in bijection
  with its epoch day number (days since 1970-01-01).  The source compares
  such strings with `===` and converts them to epoch milliseconds; here a
  date string is represented by its day number (an `Int`), string equality
  becomes `Int` equality, and `new Date(s + "T00:00:00").getTime()`
  becomes `day * msPerDay - tzOffsetMs`.  The `split("T")` truncation of a
  due-date string to its date part is absorbed by this representation.
* Clock and timezone.  `new Date()` is modelled by an explicit `nowMs`
  parameter (epoch milliseconds); the process local timezone is modelled
  by a fixed offset `tzOffsetMs` (DST transitions are not modelled, so
  `setDate(getDate() + 1)` adds exactly `msPerDay` milliseconds).
  `toISOString()` truncation to `YYYY-MM-DD` yields the UTC calendar day,
  i.e. `Int.fdiv nowMs msPerDay` (floor, matching `Math.floor`).
* ISO datetime strings (the `updated` field) are represented by the epoch
  milliseconds instant they denote.
* Effects.  `Promise`-returning functions returning `Result` values from
  neverthrow are modelled as pure functions into `Except String`, where
  the `String` is the `Error` message; the remote HTTP gateway is an
  explicit environment (`ApiEnv`) of fetch functions supplied as
  parameters.  `console.warn` side channels are dropped.
* JS strings are Lean `String`s; `toLowerCase` is mapped over the
  characters (ASCII case mapping, which agrees with JS on all characters
  occurring in the completion patterns), and `includes` is substring
  containment on the character lists.
-/

namespace BacklogFire

/-- Milliseconds in one day, the divisor 1000*60*60*24 from the source. -/
def msPerDay : Int := 86400000

/-- Result of the urgency calculation, from src/types.ts OverdueStatus. -/
structure OverdueStatus where
  isOverdue : Bool
  overdueDays : Int
  isDueTomorrow : Bool
deriving Repr, DecidableEq

/-- Embedding of calculateOverdueStatus (src/src/api.ts lines 93-141).
The optional due-date string is `Option Int` (day number of the date its
`YYYY-MM-DD` part denotes, see the conventions above); `nowMs` is the
clock reading of `new Date()` and `tzOffsetMs` the process local UTC
offset.  `todayStr` and `tomorrowStr` are the day numbers denoted by the
`toISOString().split("T")[0]` truncations; `dueTime` and `todayTime` are
the local-midnight instants `new Date(str + "T00:00:00").getTime()`. -/
def calculateOverdueStatus (nowMs tzOffsetMs : Int) (dueDate : Option Int) :
    OverdueStatus :=
  match dueDate with
  | none =>
    { isOverdue := false, overdueDays := 0, isDueTomorrow := false }
  | some dueDateStr =>
    let todayStr : Int := Int.fdiv nowMs msPerDay
    let tomorrowStr : Int := Int.fdiv (nowMs + msPerDay) msPerDay
    if dueDateStr = todayStr then
      { isOverdue := false, overdueDays := 0, isDueTomorrow := false }
    else if dueDateStr = tomorrowStr then
      { isOverdue := false, overdueDays := 0, isDueTomorrow := true }
    else
      let dueTime := dueDateStr * msPerDay - tzOffsetMs
      let todayTime := todayStr * msPerDay - tzOffsetMs
      let diffTime := todayTime - dueTime
      let overdueDays := Int.fdiv diffTime msPerDay
      { isOverdue := decide (0 < overdueDays),
        overdueDays := max 0 overdueDays,
        isDueTomorrow := false }

/-- Fixed UTC offset of Asia/Tokyo (UTC+9, no DST), in milliseconds. -/
def tokyoOffsetMs : Int := 32400000

/-- Modelled from the spec: the section 4.2 algorithm with "today" and
"tomorrow" resolved as calendar dates in the fixed timezone Asia/Tokyo,
as claimed by the specification (the code itself has no Asia/Tokyo
reference).  Used only to compare against the embedded source. -/
def calculateOverdueStatusTokyoSpec (nowMs : Int) (dueDate : Option Int) :
    OverdueStatus :=
  match dueDate with
  | none => { isOverdue := false, overdueDays := 0, isDueTomorrow := false }
  | some dueDay =>
    let today : Int := Int.fdiv (nowMs + tokyoOffsetMs) msPerDay
    if dueDay = today then
      { isOverdue := false, overdueDays := 0, isDueTomorrow := false }
    else if dueDay = today + 1 then
      { isOverdue := false, overdueDays := 0, isDueTomorrow := true }
    else
      { isOverdue := decide (0 < today - dueDay),
        overdueDays := max 0 (today - dueDay),
        isDueTomorrow := false }

/-- Modelled from the spec with the timezone corrected to UTC: the
section 4.2 algorithm with "today" and "tomorrow" resolved as UTC
calendar dates, which is what `toISOString()` truncation yields. -/
def calculateOverdueStatusUtcSpec (nowMs : Int) (dueDate : Option Int) :
    OverdueStatus :=
  match dueDate with
  | none => { isOverdue := false, overdueDays := 0, isDueTomorrow := false }
  | some dueDay =>
    let today : Int := Int.fdiv nowMs msPerDay
    if dueDay = today then
      { isOverdue := false, overdueDays := 0, isDueTomorrow := false }
    else if dueDay = today + 1 then
      { isOverdue := false, overdueDays := 0, isDueTomorrow := true }
    else
      { isOverdue := decide (0 < today - dueDay),
        overdueDays := max 0 (today - dueDay),
        isDueTomorrow := false }

/-- Character-list form of JS toLowerCase (ASCII case mapping, which
agrees with JS toLowerCase on every character used by the classifier). -/
def lowerList (l : List Char) : List Char := l.map Char.toLower

/-- Embedding of JS String.prototype.toLowerCase. -/
def jsToLower (s : String) : String := String.mk (lowerList s.data)

/-- Whether the first list occurs at the head of the second. -/
def listStartsWith : List Char → List Char → Bool
  | [], _ => true
  | _ :: _, [] => false
  | p :: ps, c :: cs => p = c && listStartsWith ps cs

/-- Whether the first list occurs contiguously anywhere in the second. -/
def listContainsSub : List Char → List Char → Bool
  | pat, [] => listStartsWith pat []
  | pat, c :: cs => listStartsWith pat (c :: cs) || listContainsSub pat cs

/-- Embedding of JS String.prototype.includes: `jsIncludes s pat` holds
when pat occurs as a contiguous substring of s. -/
def jsIncludes (s pat : String) : Bool := listContainsSub pat.data s.data

/-- The fixed pattern list from src/src/api.ts lines 43-51. -/
def completedPatterns : List String :=
  ["完了", "完成", "done", "closed", "close", "complete", "finished"]

/-- Embedding of isCompletedStatus (src/src/api.ts lines 42-57): lower
the input and test substring containment of each lowered pattern. -/
def isCompletedStatus (statusName : String) : Bool :=
  let lowerStatusName := jsToLower statusName
  completedPatterns.any (fun pattern => jsIncludes lowerStatusName (jsToLower pattern))

/-- Status record from src/types.ts BacklogStatus. -/
structure BacklogStatus where
  id : Int
  name : String
deriving Repr, DecidableEq

/-- Set-insert preserving first-insertion order, modelling
`Set.add` followed by `Array.from` of a JS Set of numbers. -/
def addUnique (acc : List Int) (x : Int) : List Int :=
  if acc.contains x then acc else acc ++ [x]

/-- Inner loop of getActiveStatusIds: add the ids of the statuses whose
name is not classified as completed (src/src/api.ts lines 82-86). -/
def collectActive (acc : List Int) (statuses : List BacklogStatus) : List Int :=
  statuses.foldl
    (fun acc status =>
      if !isCompletedStatus status.name then addUnique acc status.id else acc)
    acc

/-- Per-project status fetch with the warn-and-continue recovery of
src/src/api.ts lines 67-74: a failed fetch contributes an ok empty
list. -/
def statusResultFor (fetchProjectStatuses : Int → Except String (List BacklogStatus))
    (id : Int) : Except String (List BacklogStatus) :=
  match fetchProjectStatuses id with
  | Except.error _ => Except.ok []
  | Except.ok v => Except.ok v

/-- Fold over the gathered per-project results (src/src/api.ts lines
80-88); error results contribute nothing. -/
def accumulateActive (acc : List Int)
    (result : Except String (List BacklogStatus)) : List Int :=
  match result with
  | Except.ok statuses => collectActive acc statuses
  | Except.error _ => acc

/-- Embedding of getActiveStatusIds (src/src/api.ts lines 59-91).  The
remote per-project status fetch is supplied as a function parameter; the
scatter-gather over `Promise.all` is modelled by the deterministic list
map. -/
def getActiveStatusIds
    (fetchProjectStatuses : Int → Except String (List BacklogStatus))
    (projectIds : List Int) : Except String (List Int) :=
  if projectIds.length = 0 then Except.ok []
  else
    let allProjectStatusResults := projectIds.map (statusResultFor fetchProjectStatuses)
    Except.ok (allProjectStatusResults.foldl accumulateActive [])

/-- Convert an epoch day number to its civil (year, month, day) triple in
the proleptic Gregorian calendar, mirroring what the JS Date getters
return for that day. -/
def civilFromDays (z0 : Int) : Int × Nat × Nat :=
  let z := z0 + 719468
  let era : Int := Int.fdiv z 146097
  let doe : Nat := (z - era * 146097).toNat
  let yoe : Nat := (doe - doe / 1460 + doe / 36524 - doe / 146096) / 365
  let y : Int := (yoe : Int) + era * 400
  let doy : Nat := doe - (365 * yoe + yoe / 4 - yoe / 100)
  let mp : Nat := (5 * doy + 2) / 153
  let d : Nat := doy - (153 * mp + 2) / 5 + 1
  let m : Nat := if mp < 10 then mp + 3 else mp - 9
  (if m ≤ 2 then y + 1 else y, m, d)

/-- Two-digit zero padding, as in `String(n).padStart(2, "0")`. -/
def pad2 (n : Nat) : String :=
  if n < 10 then "0" ++ toString n else toString n

/-- Embedding of the formatDate helper inside transformIssueToTask
(src/src/api.ts lines 148-156): render the updated instant with the
process local-time getters as `YYYY/MM/DD HH:mm`.  The instant is epoch
milliseconds and the local timezone the fixed offset `tzOffsetMs`. -/
def formatDate (tzOffsetMs : Int) (isoMs : Int) : String :=
  let localMs := isoMs + tzOffsetMs
  let day := Int.fdiv localMs msPerDay
  let msOfDay := (localMs - day * msPerDay).toNat
  let ymd := civilFromDays day
  let hours := msOfDay / 3600000
  let minutes := (msOfDay % 3600000) / 60000
  toString ymd.1 ++ "/" ++ pad2 ymd.2.1 ++ "/" ++ pad2 ymd.2.2 ++ " " ++
    pad2 hours ++ ":" ++ pad2 minutes

/-- Pair of numeric id and display name, the inline `{ id, name }` shape
used by src/types.ts for issue types, statuses and assignees. -/
structure NamedRef where
  id : Int
  name : String
deriving Repr, DecidableEq

/-- Raw issue record from src/types.ts BacklogIssue.  The declared
interface includes the human issue key; it has no parent-issue id field.
The `updated` ISO datetime string is represented by its epoch
milliseconds and the `dueDate` date string by its day number. -/
structure BacklogIssue where
  id : Int
  projectId : Int
  issueKey : String
  issueType : NamedRef
  summary : String
  status : NamedRef
  assignee : Option NamedRef
  startDate : Option String
  dueDate : Option Int
  updated : Int
deriving Repr, DecidableEq

/-- Task record as actually constructed by transformIssueToTask
(the object literal at src/src/api.ts lines 161-174).  Note that it has
no issue-key field and no parent-task field. -/
structure Task where
  id : Int
  projectKey : String
  issueType : String
  summary : String
  status : String
  assigneeName : Option String
  startDate : Option String
  dueDate : Option Int
  updated : String
  isOverdue : Bool
  overdueDays : Int
  isDueTomorrow : Bool
deriving Repr, DecidableEq

/-- Parent-task reference as described by the spec and the repository
README walkthrough: id, issue key and summary of the parent issue. -/
structure ParentTaskRef where
  id : Int
  issueKey : String
  summary : String
deriving Repr, DecidableEq

/-- Modelled from src/types.ts: the declared Task interface additionally
requires an `issueKey : String` field (and the spec a parent-task
reference); the transformer below populates neither, which is the
divergence recorded for claims C5 and C6. -/
structure TaskDecl where
  id : Int
  projectKey : String
  issueKey : String
  issueType : String
  summary : String
  status : String
  assigneeName : Option String
  startDate : Option String
  dueDate : Option Int
  updated : String
  isOverdue : Bool
  overdueDays : Int
  isDueTomorrow : Bool
  parentTask : Option ParentTaskRef
deriving Repr, DecidableEq

/-- Embedding of transformIssueToTask (src/src/api.ts lines 143-175).
The source function takes exactly one issue and the resolved project
key; there is no allIssues parameter and no parent lookup.  The clock
and local offset parameters feed calculateOverdueStatus and formatDate
exactly as `new Date()` does in the source. -/
def transformIssueToTask (nowMs tzOffsetMs : Int) (issue : BacklogIssue)
    (projectKey : String) : Task :=
  let overdueStatus := calculateOverdueStatus nowMs tzOffsetMs issue.dueDate
  { id := issue.id
    projectKey := projectKey
    issueType := issue.issueType.name
    summary := issue.summary
    status := issue.status.name
    assigneeName := issue.assignee.map (fun a => a.name)
    startDate := issue.startDate
    dueDate := issue.dueDate
    updated := formatDate tzOffsetMs issue.updated
    isOverdue := overdueStatus.isOverdue
    overdueDays := overdueStatus.overdueDays
    isDueTomorrow := overdueStatus.isDueTomorrow }

/-- Project record from src/types.ts BacklogProject. -/
structure BacklogProject where
  id : Int
  projectKey : String
  name : String
deriving Repr, DecidableEq

/-- User record from src/types.ts BacklogUser. -/
structure BacklogUser where
  id : Int
  userId : String
  name : String
deriving Repr, DecidableEq

/-- Configuration record from src/types.ts BacklogConfig. -/
structure BacklogConfig where
  spaceUrl : String
  apiKey : String
  projectKeys : List String
  memberKeys : List String
  taskLimit : Option Int
  serverPort : Option Int
deriving Repr, DecidableEq

/-- Remote gateway environment.  Each field models one of the fallible
collaborators of fetchIssues and fetchBacklogTasks: the environment
configuration load, the four REST fetches (each already decoded to typed
records or an error message, absorbing HTTP status checks and transport
exceptions), with the issue-list fetch keyed by the request URL the code
builds. -/
structure ApiEnv where
  config : Except String BacklogConfig
  projects : Except String (List BacklogProject)
  projectStatuses : Int → Except String (List BacklogStatus)
  users : Except String (List BacklogUser)
  issuesHttp : String → Except String (List BacklogIssue)

/-- The `count` query value, `config.taskLimit?.toString() || "100"`. -/
def countParam (config : BacklogConfig) : String :=
  match config.taskLimit with
  | some n => toString n
  | none => "100"

/-- Project scoping of the issue query (src/src/api.ts lines 192-232):
resolve configured project keys against the project list, fail with the
wrapped messages on fetch failure or when nothing matches, then emit one
projectId filter per matching project and one statusId filter per active
status id. -/
def projectParams (env : ApiEnv) (config : BacklogConfig) :
    Except String (List (String × String)) :=
  if config.projectKeys.length > 0 then
    match env.projects with
    | Except.error e =>
      Except.error ("プロジェクト情報の取得に失敗: " ++ e)
    | Except.ok projects =>
      let filteredProjects :=
        projects.filter (fun p => config.projectKeys.contains p.projectKey)
      if filteredProjects.length = 0 then
        Except.error ("指定されたプロジェクトが見つかりません: " ++
          String.intercalate ", " config.projectKeys)
      else
        let projectIds := filteredProjects.map (fun p => p.id)
        let idParams := projectIds.map (fun i => ("projectId[]", toString i))
        match getActiveStatusIds env.projectStatuses projectIds with
        | Except.error e => Except.error e
        | Except.ok activeStatusIds =>
          let statusParams :=
            if activeStatusIds.length > 0 then
              activeStatusIds.map (fun sid => ("statusId[]", toString sid))
            else []
          Except.ok (idParams ++ statusParams)
  else Except.ok []

/-- Assignee scoping of the issue query (src/src/api.ts lines 235-254):
when member keys are configured, fetch the user list; on failure only
warn and continue with no filter; otherwise emit one assigneeId filter
per user whose userId is among the configured member keys. -/
def assigneeParams (env : ApiEnv) (config : BacklogConfig) :
    List (String × String) :=
  if config.memberKeys.length > 0 then
    match env.users with
    | Except.error _ => []
    | Except.ok users =>
      let filteredUsers :=
        users.filter (fun u => config.memberKeys.contains u.userId)
      if filteredUsers.length > 0 then
        filteredUsers.map (fun u => ("assigneeId[]", toString u.id))
      else []
  else []

/-- Modelled from the spec: assignee filters built by passing the
configured member keys straight through as opaque filter values with no
resolution through the user list, as sections 4.5 and 6 describe. -/
def assigneeParamsDirectSpec (config : BacklogConfig) :
    List (String × String) :=
  if config.memberKeys.length > 0 then
    config.memberKeys.map (fun k => ("assigneeId[]", k))
  else []

/-- Query parameter list of the issue request, in append order
(src/src/api.ts lines 187-254). -/
def buildIssuesParams (env : ApiEnv) (config : BacklogConfig) :
    Except String (List (String × String)) :=
  match projectParams env config with
  | Except.error e => Except.error e
  | Except.ok pp =>
    Except.ok ([("apiKey", config.apiKey), ("count", countParam config)] ++
      pp ++ assigneeParams env config)

/-- Rendering of URLSearchParams.toString, with percent-encoding left as
the identity (consistently on both sides of every comparison). -/
def renderParams (ps : List (String × String)) : String :=
  String.intercalate "&" (ps.map (fun p => p.1 ++ "=" ++ p.2))

/-- Embedding of fetchIssues (src/src/api.ts lines 178-275): load the
configuration, build the scoped query and issue the HTTP request. -/
def fetchIssues (env : ApiEnv) : Except String (List BacklogIssue) :=
  match env.config with
  | Except.error e => Except.error e
  | Except.ok config =>
    match buildIssuesParams env config with
    | Except.error e => Except.error e
    | Except.ok ps =>
      env.issuesHttp (config.spaceUrl ++ "/api/v2/issues?" ++ renderParams ps)

/-- Lookup in the id-to-key map built with Map.set in iteration order:
the binding written last wins, as in the JS Map. -/
def projectMapGet (m : List (Int × String)) (k : Int) : Option String :=
  m.foldl (fun acc kv => if kv.1 = k then some kv.2 else acc) none

/-- Embedding of fetchBacklogTasks (src/src/api.ts lines 401-430): fetch
projects, build the id-to-key map, fetch issues, transform each issue.
The `projectMap.get(id) || fallback` of the source falls back both when
the id is absent and when the stored key is the empty string (JS
truthiness), which the inner match reproduces. -/
def fetchBacklogTasks (nowMs tzOffsetMs : Int) (env : ApiEnv) :
    Except String (List Task) :=
  match env.projects with
  | Except.error e => Except.error e
  | Except.ok projects =>
    let projectMap := projects.map (fun project => (project.id, project.projectKey))
    match fetchIssues env with
    | Except.error e => Except.error e
    | Except.ok issues =>
      Except.ok (issues.map (fun issue =>
        let projectKey :=
          match projectMapGet projectMap issue.projectId with
          | some k =>
            if k = "" then "PROJECT_" ++ toString issue.projectId else k
          | none => "PROJECT_" ++ toString issue.projectId
        transformIssueToTask nowMs tzOffsetMs issue projectKey))

/-- Concrete configuration with one configured member key alice and no
configured project keys. -/
def memberConfig : BacklogConfig :=
  { spaceUrl := "https://example.backlog.com", apiKey := "KEY",
    projectKeys := [], memberKeys := ["alice"],
    taskLimit := some 100, serverPort := some 3001 }

/-- Concrete environment whose user list contains the member alice under
numeric id 42, and whose issue endpoint echoes the requested URL so the
assembled query is observable in the result. -/
def memberEnv : ApiEnv :=
  { config := Except.ok memberConfig,
    projects := Except.ok [],
    projectStatuses := fun _ => Except.error "unused",
    users := Except.ok [{ id := 42, userId := "alice", name := "Alice" }],
    issuesHttp := fun url => Except.error url }

/-- Concrete environment with the member key configured but a failing
user-list fetch. -/
def memberFailEnv : ApiEnv :=
  { config := Except.ok memberConfig,
    projects := Except.ok [],
    projectStatuses := fun _ => Except.error "unused",
    users := Except.error "user fetch failed",
    issuesHttp := fun _ => Except.ok [] }

lemma fdiv_add_msPerDay (a : Int) :
    Int.fdiv (a + msPerDay) msPerDay = Int.fdiv a msPerDay + 1 := by
  rw [Int.fdiv_eq_ediv _ (by norm_num [msPerDay]),
    Int.fdiv_eq_ediv _ (by norm_num [msPerDay])]
  show (a + msPerDay) / msPerDay = a / msPerDay + 1
  simp only [msPerDay]
  omega

lemma fdiv_day_diff (t d tz : Int) :
    Int.fdiv ((t * msPerDay - tz) - (d * msPerDay - tz)) msPerDay = t - d := by
  rw [Int.fdiv_eq_ediv _ (by norm_num [msPerDay])]
  have h : (t * msPerDay - tz) - (d * msPerDay - tz) = (t - d) * msPerDay := by
    ring
  rw [h]
  simp only [msPerDay]
  omega

/-- Normal form of the embedded calculator on a present due date: the
timezone offset cancels and everything is decided by day numbers. -/
lemma calculateOverdueStatus_some (nowMs tzOffsetMs d : Int) :
    calculateOverdueStatus nowMs tzOffsetMs (some d) =
      if d = Int.fdiv nowMs msPerDay then
        { isOverdue := false, overdueDays := 0, isDueTomorrow := false }
      else if d = Int.fdiv nowMs msPerDay + 1 then
        { isOverdue := false, overdueDays := 0, isDueTomorrow := true }
      else
        { isOverdue := decide (0 < Int.fdiv nowMs msPerDay - d),
          overdueDays := max 0 (Int.fdiv nowMs msPerDay - d),
          isDueTomorrow := false } := by
  have h0 : calculateOverdueStatus nowMs tzOffsetMs (some d) =
      if d = Int.fdiv nowMs msPerDay then
        { isOverdue := false, overdueDays := 0, isDueTomorrow := false }
      else if d = Int.fdiv (nowMs + msPerDay) msPerDay then
        { isOverdue := false, overdueDays := 0, isDueTomorrow := true }
      else
        { isOverdue := decide (0 < Int.fdiv ((Int.fdiv nowMs msPerDay *
            msPerDay - tzOffsetMs) - (d * msPerDay - tzOffsetMs)) msPerDay),
          overdueDays := max 0 (Int.fdiv ((Int.fdiv nowMs msPerDay *
            msPerDay - tzOffsetMs) - (d * msPerDay - tzOffsetMs)) msPerDay),
          isDueTomorrow := false } := rfl
  rw [h0, fdiv_add_msPerDay, fdiv_day_diff]

/-- C1: for a due date strictly N days in the past (N at least 1)
relative to today, the result is isOverdue = true, overdueDays = N,
isDueTomorrow = false, where N is the whole-day difference of the
midnight-to-midnight timestamps (today minus due date). -/
theorem calculateOverdueStatus_past_n_days (nowMs tzOffsetMs N : Int)
    (hN : 1 ≤ N) :
    calculateOverdueStatus nowMs tzOffsetMs
        (some (Int.fdiv nowMs msPerDay - N)) =
      { isOverdue := true, overdueDays := N, isDueTomorrow := false } := by
  rw [calculateOverdueStatus_some]
  rw [if_neg (by omega), if_neg (by omega)]
  have h1 : Int.fdiv nowMs msPerDay - (Int.fdiv nowMs msPerDay - N) = N := by
    omega
  rw [h1]
  have h2 : decide (0 < N) = true := by simp; omega
  rw [h2]
  have h3 : max 0 N = N := by omega
  rw [h3]

/-- Witness for C1 at a concrete input: now = 2024-01-01T20:00:00Z and a
due date 3 days in the past (day 19720 = 2023-12-29). -/
theorem calculateOverdueStatus_past_n_days_witness :
    calculateOverdueStatus 1704139200000 32400000 (some 19720) =
      { isOverdue := true, overdueDays := 3, isDueTomorrow := false } := by
  have h := calculateOverdueStatus_past_n_days 1704139200000 32400000 3
    (by norm_num)
  have hday : Int.fdiv 1704139200000 msPerDay - 3 = 19720 := by decide
  rw [hday] at h
  exact h

/-- C2 counterexample: at now = 1704139200000 (2024-01-01T20:00:00Z) the
UTC calendar date is 2024-01-01 (day 19723) but the Asia/Tokyo calendar
date is already 2024-01-02 (day 19724).  The code treats a due date of
2024-01-01 as due today, while the Asia/Tokyo reading demanded by the
claim would classify it as one day overdue, so the result is not
determined by the Asia/Tokyo calendar date. -/
theorem calculateOverdueStatus_not_tokyo :
    calculateOverdueStatus 1704139200000 0 (some 19723) =
        { isOverdue := false, overdueDays := 0, isDueTomorrow := false } ∧
      calculateOverdueStatusTokyoSpec 1704139200000 (some 19723) =
        { isOverdue := true, overdueDays := 1, isDueTomorrow := false } ∧
      calculateOverdueStatus 1704139200000 0 (some 19723) ≠
        calculateOverdueStatusTokyoSpec 1704139200000 (some 19723) := by
  refine ⟨by decide, by decide, by decide⟩

/-- C2 amended: calculateOverdueStatus resolves "today" and "tomorrow" as
UTC calendar dates (the `toISOString()` truncation), not Asia/Tokyo; for
every clock reading, local offset and due date the result coincides with
the UTC-based specification algorithm, so it is independent of the
process local timezone offset (DST aside). -/
theorem calculateOverdueStatus_utc (nowMs tzOffsetMs : Int)
    (dueDate : Option Int) :
    calculateOverdueStatus nowMs tzOffsetMs dueDate =
      calculateOverdueStatusUtcSpec nowMs dueDate := by
  cases dueDate with
  | none => rfl
  | some d =>
    rw [calculateOverdueStatus_some]
    rfl

/-- C3: the urgency invariant.  For every clock reading, timezone offset
and input (absent due date or any date denoted by a due-date string),
isOverdue and isDueTomorrow are never both true, overdueDays is 0
whenever isOverdue is false, and overdueDays is never negative. -/
theorem calculateOverdueStatus_invariant (nowMs tzOffsetMs : Int)
    (dueDate : Option Int) :
    ¬((calculateOverdueStatus nowMs tzOffsetMs dueDate).isOverdue = true ∧
        (calculateOverdueStatus nowMs tzOffsetMs dueDate).isDueTomorrow = true) ∧
      ((calculateOverdueStatus nowMs tzOffsetMs dueDate).isOverdue = false →
        (calculateOverdueStatus nowMs tzOffsetMs dueDate).overdueDays = 0) ∧
      0 ≤ (calculateOverdueStatus nowMs tzOffsetMs dueDate).overdueDays := by
  cases dueDate with
  | none => simp [calculateOverdueStatus]
  | some d =>
    rw [calculateOverdueStatus_some]
    split_ifs with h1 h2
    · simp
    · simp
    · refine ⟨?_, ?_, ?_⟩
      · intro h
        simp at h
      · intro h
        simp only [decide_eq_false_iff_not, not_lt] at h
        simp only
        omega
      · simp only
        omega

/-- Witness for C3 at a concrete input, discharging the implication: with
now at day 19723 and a due date five days ahead, isOverdue is false and
the theorem forces overdueDays = 0. -/
theorem calculateOverdueStatus_invariant_witness :
    (calculateOverdueStatus 1704139200000 0 (some 19728)).overdueDays = 0 := by
  have h := calculateOverdueStatus_invariant 1704139200000 0 (some 19728)
  exact h.2.1 (by decide)

lemma completedPatterns_lower_fixed :
    ∀ p ∈ completedPatterns, jsToLower p = p := by decide

/-- C9: isCompletedStatus returns true exactly when the lower-cased input
contains one of the fixed patterns as a substring; in particular "DONE",
"done" and "Closed-Won" are all classified as completed. -/
theorem isCompletedStatus_iff_substring :
    (∀ s : String, isCompletedStatus s = true ↔
        ∃ p ∈ completedPatterns, jsIncludes (jsToLower s) p = true) ∧
      isCompletedStatus "DONE" = true ∧
      isCompletedStatus "done" = true ∧
      isCompletedStatus "Closed-Won" = true := by
  refine ⟨?_, by decide, by decide, by decide⟩
  intro s
  simp only [isCompletedStatus, List.any_eq_true]
  constructor
  · rintro ⟨p, hp, h⟩
    refine ⟨p, hp, ?_⟩
    rwa [completedPatterns_lower_fixed p hp] at h
  · rintro ⟨p, hp, h⟩
    refine ⟨p, hp, ?_⟩
    rwa [completedPatterns_lower_fixed p hp]

/-- Witness for C9, applying the characterization right to left to a
string that merely contains the pattern "done". -/
theorem isCompletedStatus_iff_substring_witness :
    isCompletedStatus "will be done soon" = true :=
  (isCompletedStatus_iff_substring.1 "will be done soon").mpr
    ⟨"done", by decide, by decide⟩

lemma foldl_accumulateActive_all_err
    (f : Int → Except String (List BacklogStatus)) :
    ∀ (l : List Int) (acc : List Int),
      (∀ id ∈ l, ∃ e, f id = Except.error e) →
      (l.map (statusResultFor f)).foldl accumulateActive acc = acc := by
  intro l
  induction l with
  | nil => intro acc _; rfl
  | cons x xs ih =>
    intro acc h
    obtain ⟨e, he⟩ := h x (List.mem_cons_self x xs)
    have hx : statusResultFor f x = Except.ok [] := by
      simp [statusResultFor, he]
    simp only [List.map_cons, List.foldl_cons, hx]
    have hacc : accumulateActive acc (Except.ok []) = acc := rfl
    rw [hacc]
    exact ih acc (fun i hi => h i (List.mem_cons_of_mem x hi))

/-- C4: getActiveStatusIds is total in its result channel.  For every
fetch environment and project id list it succeeds; on the empty list it
succeeds with the empty list; and when every per-project fetch fails it
still succeeds with the empty list, never propagating a fetch failure. -/
theorem getActiveStatusIds_never_fails
    (f : Int → Except String (List BacklogStatus)) (projectIds : List Int) :
    (∃ v, getActiveStatusIds f projectIds = Except.ok v) ∧
      (projectIds = [] → getActiveStatusIds f projectIds = Except.ok []) ∧
      ((∀ id ∈ projectIds, ∃ e, f id = Except.error e) →
        getActiveStatusIds f projectIds = Except.ok []) := by
  by_cases hlen : projectIds.length = 0
  · have h0 : getActiveStatusIds f projectIds = Except.ok [] := by
      simp [getActiveStatusIds, hlen]
    exact ⟨⟨[], h0⟩, fun _ => h0, fun _ => h0⟩
  · have h0 : getActiveStatusIds f projectIds =
        Except.ok ((projectIds.map (statusResultFor f)).foldl accumulateActive []) := by
      simp [getActiveStatusIds, hlen]
    refine ⟨⟨_, h0⟩, ?_, ?_⟩
    · intro hnil
      rw [hnil] at hlen
      exact absurd rfl hlen
    · intro hall
      rw [h0, foldl_accumulateActive_all_err f projectIds [] hall]

/-- Witness for C4 at a concrete environment in which every per-project
fetch fails: the call still succeeds with the empty list. -/
theorem getActiveStatusIds_never_fails_witness :
    getActiveStatusIds (fun _ => Except.error "boom") [1, 2, 3] =
      Except.ok [] :=
  (getActiveStatusIds_never_fails (fun _ => Except.error "boom") [1, 2, 3]).2.2
    (fun _ _ => ⟨"boom", rfl⟩)

/-- C5: evaluation of the embedded transformer on the child issue of the
repository README parent-resolution walkthrough (id 101, summary 子タスク,
due 2024-01-31, updated 2024-01-15T09:00:00Z, clock 2024-01-01T20:00:00Z,
offset UTC+9).  The walkthrough passes a third allIssues argument and
expects a parentTask reference to issue 100; the source function accepts
no such argument, its BacklogIssue record cannot even carry the
parentIssueId the walkthrough sets, and the complete output below
contains no parent reference. -/
theorem transformIssueToTask_no_parent_resolution :
    transformIssueToTask 1704139200000 32400000
        { id := 101, projectId := 456, issueKey := "TEST-101",
          issueType := { id := 2, name := "サブタスク" },
          summary := "子タスク",
          status := { id := 1, name := "処理中" },
          assignee := some { id := 789, name := "田中太郎" },
          startDate := some "2024-01-01", dueDate := some 19753,
          updated := 1705309200000 } "TEST" =
      { id := 101, projectKey := "TEST", issueType := "サブタスク",
        summary := "子タスク", status := "処理中",
        assigneeName := some "田中太郎", startDate := some "2024-01-01",
        dueDate := some 19753, updated := "2024/01/15 18:00",
        isOverdue := false, overdueDays := 0, isDueTomorrow := false } := by
  decide

/-- C6: evaluation of the embedded transformer on an issue carrying the
human issue key TEST-123.  The complete output record below is the whole
Task the code builds: it copies id, project key, issue-type name,
summary, status name and the rest, but the source issue key appears
nowhere, although the declared Task interface of src/types.ts requires
an issueKey field and TaskCard.tsx reads task.issueKey. -/
theorem transformIssueToTask_drops_issueKey :
    transformIssueToTask 1704139200000 32400000
        { id := 123, projectId := 456, issueKey := "TEST-123",
          issueType := { id := 1, name := "タスク" },
          summary := "テストタスク",
          status := { id := 1, name := "処理中" },
          assignee := some { id := 789, name := "田中太郎" },
          startDate := some "2024-01-01", dueDate := some 19723,
          updated := 1705309200000 } "TEST" =
      { id := 123, projectKey := "TEST", issueType := "タスク",
        summary := "テストタスク", status := "処理中",
        assigneeName := some "田中太郎", startDate := some "2024-01-01",
        dueDate := some 19723, updated := "2024/01/15 18:00",
        isOverdue := false, overdueDays := 0, isDueTomorrow := false } := by
  decide

/-- C8: when the project-list fetch fails with message M, the whole
fetchBacklogTasks call fails with exactly the message M, propagated
verbatim, and no task list is produced. -/
theorem fetchBacklogTasks_propagates_project_error
    (nowMs tzOffsetMs : Int) (env : ApiEnv) (e : String)
    (h : env.projects = Except.error e) :
    fetchBacklogTasks nowMs tzOffsetMs env = Except.error e := by
  unfold fetchBacklogTasks
  rw [h]

/-- Witness for C8 at a concrete environment whose project fetch fails
with a specific message. -/
theorem fetchBacklogTasks_propagates_project_error_witness :
    fetchBacklogTasks 0 0
        { config := Except.error "unused",
          projects := Except.error "プロジェクト取得に失敗: 503 Service Unavailable",
          projectStatuses := fun _ => Except.error "unused",
          users := Except.error "unused",
          issuesHttp := fun _ => Except.error "unused" } =
      Except.error "プロジェクト取得に失敗: 503 Service Unavailable" :=
  fetchBacklogTasks_propagates_project_error 0 0 _ _ rfl

lemma filter_assignee_map (l : List BacklogUser) :
    (l.map (fun u => ("assigneeId[]", toString u.id))).filter
        (fun p => p.1 == "assigneeId[]") =
      l.map (fun u => ("assigneeId[]", toString u.id)) := by
  induction l with
  | nil => rfl
  | cons x xs ih => simp [List.filter, ih]

lemma filter_keyed_map (l : List Int) (key : String)
    (hk : (key == "assigneeId[]") = false) :
    (l.map (fun i => (key, toString i))).filter
      (fun p => p.1 == "assigneeId[]") = [] := by
  induction l with
  | nil => rfl
  | cons x xs ih => simp [List.filter, hk, ih]

lemma filter_contains_nil (l : List BacklogUser) :
    l.filter (fun u => ([] : List String).contains u.userId) = [] := by
  induction l with
  | nil => rfl
  | cons x xs ih => simp [List.filter, ih, List.contains]

lemma projectParams_ok_no_assignee (env : ApiEnv) (config : BacklogConfig)
    (pp : List (String × String)) (h : projectParams env config = Except.ok pp) :
    pp.filter (fun p => p.1 == "assigneeId[]") = [] := by
  unfold projectParams at h
  split at h
  · cases hproj : env.projects with
    | error e =>
      rw [hproj] at h
      exact Except.noConfusion h
    | ok projects =>
      rw [hproj] at h
      dsimp only at h
      split at h
      · exact Except.noConfusion h
      · split at h
        · exact Except.noConfusion h
        · injection h with h'
          subst h'
          rw [List.filter_append,
            filter_keyed_map _ "projectId[]" (by decide)]
          split
          · rw [filter_keyed_map _ "statusId[]" (by decide)]
            rfl
          · rfl
  · injection h with h'
    subst h'
    rfl

lemma assigneeParams_ok_eq (env : ApiEnv) (config : BacklogConfig)
    (users : List BacklogUser) (hu : env.users = Except.ok users) :
    assigneeParams env config =
      (users.filter (fun u => config.memberKeys.contains u.userId)).map
        (fun u => ("assigneeId[]", toString u.id)) := by
  unfold assigneeParams
  rw [hu]
  split
  · dsimp only
    split
    · rfl
    · rename_i hlen
      have h0 : (users.filter
          (fun u => config.memberKeys.contains u.userId)).length = 0 := by
        omega
      rw [List.length_eq_zero] at h0
      rw [h0]
      rfl
  · rename_i hlen
    have hm : config.memberKeys = [] := by
      cases hmk : config.memberKeys with
      | nil => rfl
      | cons a l => rw [hmk] at hlen; simp at hlen
    rw [hm, filter_contains_nil]
    rfl

lemma assigneeParams_err_eq (env : ApiEnv) (config : BacklogConfig)
    (e : String) (hu : env.users = Except.error e) :
    assigneeParams env config = [] := by
  unfold assigneeParams
  rw [hu]
  split <;> rfl

lemma assigneeParams_self_filter (env : ApiEnv) (config : BacklogConfig) :
    (assigneeParams env config).filter (fun p => p.1 == "assigneeId[]") =
      assigneeParams env config := by
  unfold assigneeParams
  split
  · cases hu : env.users with
    | error e => rfl
    | ok users =>
      dsimp only
      split
      · exact filter_assignee_map _
      · rfl
  · rfl

lemma buildIssuesParams_filter (env : ApiEnv) (config : BacklogConfig)
    (ps : List (String × String))
    (h : buildIssuesParams env config = Except.ok ps) :
    ps.filter (fun p => p.1 == "assigneeId[]") = assigneeParams env config := by
  unfold buildIssuesParams at h
  cases hpp : projectParams env config with
  | error e =>
    rw [hpp] at h
    exact Except.noConfusion h
  | ok pp =>
    rw [hpp] at h
    injection h with h'
    subst h'
    rw [List.filter_append, List.filter_append, assigneeParams_self_filter,
      projectParams_ok_no_assignee env config pp hpp]
    rfl

/-- C7 counterexample: with one configured member key alice and a user
list containing alice under numeric id 42, the issue query carries the
resolved numeric id 42 as its assigneeId filter, not the opaque member
key alice that the claim says is passed straight through, and the
full request URL shows the resolved value. -/
theorem buildIssuesParams_member_keys_counterexample :
    assigneeParams memberEnv memberConfig = [("assigneeId[]", "42")] ∧
      assigneeParamsDirectSpec memberConfig = [("assigneeId[]", "alice")] ∧
      assigneeParams memberEnv memberConfig ≠
        assigneeParamsDirectSpec memberConfig ∧
      fetchIssues memberEnv = Except.error
        "https://example.backlog.com/api/v2/issues?apiKey=KEY&count=100&assigneeId[]=42" := by
  refine ⟨rfl, rfl, by decide, rfl⟩

/-- C7 amended: when the user-list fetch succeeds, the assigneeId filter
values of the issue query are exactly the numeric ids of the users whose
userId is among the configured member keys — the member keys are
resolved through the user list, not passed through as opaque values. -/
theorem buildIssuesParams_resolves_member_keys (env : ApiEnv)
    (config : BacklogConfig) (users : List BacklogUser)
    (ps : List (String × String)) (hu : env.users = Except.ok users)
    (hps : buildIssuesParams env config = Except.ok ps) :
    ps.filter (fun p => p.1 == "assigneeId[]") =
      (users.filter (fun u => config.memberKeys.contains u.userId)).map
        (fun u => ("assigneeId[]", toString u.id)) := by
  rw [buildIssuesParams_filter env config ps hps,
    assigneeParams_ok_eq env config users hu]

/-- Witness for the amended C7 at the concrete member environment: the
query parameters filter down to the single resolved assigneeId 42. -/
theorem buildIssuesParams_resolves_member_keys_witness :
    ([("apiKey", "KEY"), ("count", "100"),
        ("assigneeId[]", "42")] : List (String × String)).filter
      (fun p => p.1 == "assigneeId[]") = [("assigneeId[]", "42")] :=
  (buildIssuesParams_resolves_member_keys memberEnv memberConfig
    [{ id := 42, userId := "alice", name := "Alice" }]
    [("apiKey", "KEY"), ("count", "100"), ("assigneeId[]", "42")]
    rfl rfl).trans rfl

/-- C10: when member keys are configured and the user-list fetch fails,
fetchIssues behaves exactly as if the user list were empty — the failure
is absorbed rather than propagated, and the issue query is built with no
assigneeId filter at all, widening the result to all assignees. -/
theorem fetchIssues_user_failure_widens (env : ApiEnv)
    (config : BacklogConfig) (e : String)
    (hc : env.config = Except.ok config)
    (_hm : config.memberKeys.length > 0)
    (hu : env.users = Except.error e) :
    fetchIssues env = fetchIssues { env with users := Except.ok [] } ∧
      ∀ ps, buildIssuesParams env config = Except.ok ps →
        ps.filter (fun p => p.1 == "assigneeId[]") = [] := by
  have hbp : ∀ (c : Except String BacklogConfig) (cfg : BacklogConfig),
      buildIssuesParams env cfg =
        buildIssuesParams
          { config := c, projects := env.projects,
            projectStatuses := env.projectStatuses, users := Except.ok [],
            issuesHttp := env.issuesHttp } cfg := by
    intro c cfg
    unfold buildIssuesParams
    have hppr : projectParams
        ({ config := c, projects := env.projects,
           projectStatuses := env.projectStatuses, users := Except.ok [],
           issuesHttp := env.issuesHttp } : ApiEnv) cfg =
        projectParams env cfg := rfl
    rw [hppr]
    cases projectParams env cfg with
    | error e2 => rfl
    | ok pp =>
      have ha1 : assigneeParams env cfg = [] :=
        assigneeParams_err_eq env cfg e hu
      have ha2 : assigneeParams
          ({ config := c, projects := env.projects,
             projectStatuses := env.projectStatuses, users := Except.ok [],
             issuesHttp := env.issuesHttp } : ApiEnv) cfg = [] :=
        (assigneeParams_ok_eq _ cfg [] rfl).trans (by rfl)
      rw [ha1, ha2]
  constructor
  · unfold fetchIssues
    have hc2 : ({ env with users := Except.ok [] } : ApiEnv).config =
        env.config := rfl
    rw [hc2, hc]
    dsimp only
    rw [← hbp (Except.ok config) config]
  · intro ps hps
    rw [buildIssuesParams_filter env config ps hps,
      assigneeParams_err_eq env config e hu]

/-- Witness for C10 at a concrete environment whose user fetch fails:
the fetch is unchanged by replacing the failure with an empty user list,
and the concrete parameter list carries no assigneeId filter. -/
theorem fetchIssues_user_failure_widens_witness :
    fetchIssues memberFailEnv =
        fetchIssues { memberFailEnv with users := Except.ok [] } ∧
      ([("apiKey", "KEY"), ("count", "100")] : List (String × String)).filter
        (fun p => p.1 == "assigneeId[]") = [] := by
  have h := fetchIssues_user_failure_widens memberFailEnv memberConfig
    "user fetch failed" rfl (by decide) rfl
  exact ⟨h.1, h.2 [("apiKey", "KEY"), ("count", "100")] rfl⟩

end BacklogFire
